import Mathlib

/-!
# Network interface enumeration (`src/arvnetwork.c`)

A shallow embedding of `arv_enumerate_network_interfaces` in its two build variants
(the POSIX one built on `getifaddrs`, the Win32 one built on `GetAdaptersAddresses`),
followed by theorems about the records the function returns.

Conventions of the embedding:

* a C pointer that may be `NULL` is an `Option`; a `GList*` is a `List` (`NULL` is `[]`);
* a linked list of OS structures (`ifa_next`, `Next`) is a `List` in link order;
* 32-bit unsigned words are `Nat` reduced modulo `2 ^ 32` where the C operation wraps;
* an operation whose behaviour C leaves undefined yields `none`;
* the calls into the operating system are inputs of the model.
-/

set_option autoImplicit false

namespace ArvNetwork

/-! ## Constants of the system headers -/

/-- Address family of IPv4 in `<sys/socket.h>` and `<winsock2.h>`. -/
def AF_INET : Nat := 2

/-- Interface flag "up" of `<net/if.h>`. -/
def IFF_UP : Nat := 0x1

/-- Interface flag "point-to-point link" of `<net/if.h>`. -/
def IFF_POINTOPOINT : Nat := 0x10

/-! ## Data model -/

/-- A `struct sockaddr` seen through its `struct sockaddr_in` layout: the family tag,
the port and the raw 32-bit word `sin_addr.s_addr` as the host loads it. -/
structure Sockaddr where
  sa_family : Nat
  sin_port : Nat
  s_addr : Nat
deriving DecidableEq

/-- The record `struct _ArvNetworkInterface`; every field is a pointer. -/
structure ArvNetworkInterface where
  addr : Option Sockaddr
  netmask : Option Sockaddr
  broadaddr : Option Sockaddr
  name : Option String
deriving DecidableEq

/-- Result of `g_new0` and `g_malloc0`: a record whose four pointers are `NULL`. -/
def g_new0 : ArvNetworkInterface :=
  { addr := none, netmask := none, broadaddr := none, name := none }

/-- GLib's `g_memdup` of one `struct sockaddr`: a fresh copy, `NULL` for `NULL`. -/
def g_memdup (mem : Option Sockaddr) : Option Sockaddr := mem

/-- GLib's `g_list_prepend`. -/
def g_list_prepend {α : Type} (list : List α) (data : α) : List α := data :: list

/-- GLib's `g_list_reverse`. -/
def g_list_reverse {α : Type} (list : List α) : List α := list.reverse

/-- The accessor `arv_network_interface_get_addr`. -/
def arv_network_interface_get_addr (a : ArvNetworkInterface) : Option Sockaddr := a.addr

/-- The accessor `arv_network_interface_get_netmask`. -/
def arv_network_interface_get_netmask (a : ArvNetworkInterface) : Option Sockaddr := a.netmask

/-- The accessor `arv_network_interface_get_broadaddr`. -/
def arv_network_interface_get_broadaddr (a : ArvNetworkInterface) : Option Sockaddr :=
  a.broadaddr

/-- C's `~` on a 32-bit unsigned word. -/
def not32 (x : Nat) : Nat := (x % 2 ^ 32) ^^^ (2 ^ 32 - 1)

/-! ## POSIX variant -/

namespace Posix

/-- One node of the list filled by `getifaddrs` (`struct ifaddrs` without `ifa_next`,
which is the list order, and without `ifa_data`, which the function never reads). -/
structure Ifaddrs where
  ifa_name : Option String
  ifa_flags : Nat
  ifa_addr : Option Sockaddr
  ifa_netmask : Option Sockaddr
  ifu_broadaddr : Option Sockaddr
deriving DecidableEq

/-- The condition of the `if` in the loop body, with C's left-to-right `&&`:
the family is read only behind the `NULL` test of `ifa_addr`. -/
def accepts (e : Ifaddrs) : Bool :=
  (e.ifa_flags &&& IFF_UP != 0) &&
  (e.ifa_flags &&& IFF_POINTOPOINT == 0) &&
  (match e.ifa_addr with
   | none => false
   | some sa => sa.sa_family == AF_INET)

/-- The record filled inside the `if`: `addr` is duplicated unconditionally, the three
other fields only behind their `NULL` tests (`g_strdup` for the name). -/
def fill (e : Ifaddrs) : ArvNetworkInterface :=
  let a := g_new0
  let a := { a with addr := g_memdup e.ifa_addr }
  let a := if e.ifa_netmask.isSome then { a with netmask := g_memdup e.ifa_netmask } else a
  let a := if e.ifu_broadaddr.isSome then { a with broadaddr := g_memdup e.ifu_broadaddr } else a
  let a := if e.ifa_name.isSome then { a with name := e.ifa_name } else a
  a

/-- The `for` loop over `ifap_iter`, threading the accumulator `ret`. -/
def loop : List Ifaddrs → List ArvNetworkInterface → List ArvNetworkInterface
  | [], ret => ret
  | e :: rest, ret =>
    if accepts e then loop rest (g_list_prepend ret (fill e)) else loop rest ret

/-- The POSIX `arv_enumerate_network_interfaces`. The argument is what `getifaddrs`
stored in `ifap`, or `none` when it returned a negative value. -/
def arv_enumerate_network_interfaces (getifaddrs : Option (List Ifaddrs)) :
    List ArvNetworkInterface :=
  match getifaddrs with
  | none => []
  | some ifap => g_list_reverse (loop ifap [])

/-! ### Sample inputs -/

/-- An entry that is up, not point-to-point and IPv4, with a netmask and without a
broadcast address, as `getifaddrs` reports the loopback interface. -/
def exampleUp : Ifaddrs :=
  { ifa_name := some "lo", ifa_flags := 0x49,
    ifa_addr := some { sa_family := AF_INET, sin_port := 0, s_addr := 0x0100007f },
    ifa_netmask := some { sa_family := AF_INET, sin_port := 0, s_addr := 0x000000ff },
    ifu_broadaddr := none }

/-- An IPv4 entry that is down. -/
def exampleDown : Ifaddrs :=
  { ifa_name := some "eth1", ifa_flags := 0x1002,
    ifa_addr := some { sa_family := AF_INET, sin_port := 0, s_addr := 0x0501a8c0 },
    ifa_netmask := some { sa_family := AF_INET, sin_port := 0, s_addr := 0x00ffffff },
    ifu_broadaddr := some { sa_family := AF_INET, sin_port := 0, s_addr := 0xff01a8c0 } }

/-- An IPv4 entry that is up and point-to-point. -/
def examplePointToPoint : Ifaddrs :=
  { ifa_name := some "ppp0", ifa_flags := 0x10d1,
    ifa_addr := some { sa_family := AF_INET, sin_port := 0, s_addr := 0x0100000a },
    ifa_netmask := some { sa_family := AF_INET, sin_port := 0, s_addr := 0xffffffff },
    ifu_broadaddr := some { sa_family := AF_INET, sin_port := 0, s_addr := 0x0200000a } }

end Posix

/-! ## Win32 variant -/

namespace Win32

/-- Status `ERROR_SUCCESS` of `<winerror.h>`. -/
def ERROR_SUCCESS : Nat := 0

/-- Status `ERROR_BUFFER_OVERFLOW` of `<winerror.h>`. -/
def ERROR_BUFFER_OVERFLOW : Nat := 111

/-- Value `IfOperStatusUp` of the enumeration `IF_OPER_STATUS`. -/
def IfOperStatusUp : Nat := 1

/-- Address family of IPv6 in `<winsock2.h>`. -/
def AF_INET6 : Nat := 23

/-- One node of an adapter's unicast list: the socket address behind
`Address.lpSockaddr` and the 8-bit field `OnLinkPrefixLength`. -/
structure IP_ADAPTER_UNICAST_ADDRESS where
  lpSockaddr : Sockaddr
  OnLinkPrefixLength : Nat
deriving DecidableEq

/-- One node of the adapter list: the fields the function reads. The friendly name is
kept as the narrow string that `wcstombs` produces from it. -/
structure IP_ADAPTER_ADDRESSES where
  OperStatus : Nat
  FriendlyName : String
  FirstUnicastAddress : List IP_ADAPTER_UNICAST_ADDRESS
deriving DecidableEq

/-- One row of the table filled by `GetIpAddrTable`. -/
structure MIB_IPADDRROW where
  dwAddr : Nat
  dwMask : Nat
deriving DecidableEq

/-- The two builds selected by `#if WINVER >= _WIN32_WINNT_VISTA`. The older build
carries the rows of `pIPAddrTable`, or `none` when the second `GetIpAddrTable` call
did not return `NO_ERROR` (the table is then freed before the adapters are read). -/
inductive Winver where
  | vista
  | preVista (pIPAddrTable : Option (List MIB_IPADDRROW))
deriving DecidableEq

/-- The messages passed to `arv_warning_interface`. -/
inductive Warning where
  /-- Message "GetIpAddrTable failed." -/
  | getIpAddrTableFailed
  /-- Message "Failed to enumerate network interfaces (GetAdaptersAddresses returned %lu)". -/
  | enumerateFailed (dwRetVal : Nat)
  /-- Message "Failed to obtain netmask, using 255.255.255.255." -/
  | netmaskFallback
  /-- Message "IPv6 support not yet implemented." -/
  | ipv6NotImplemented
deriving DecidableEq

/-- Winsock's `htonl` on a little-endian host, which every Windows target is: the four
bytes of the word in reverse order. `ntohl` is the same function. -/
def htonl (x : Nat) : Nat :=
  ((x % 2 ^ 8) <<< 24) ||| (((x >>> 8) % 2 ^ 8) <<< 16) |||
    (((x >>> 16) % 2 ^ 8) <<< 8) ||| ((x >>> 24) % 2 ^ 8)

/-- Winsock's `ntohl` on a little-endian host. -/
def ntohl (x : Nat) : Nat := htonl x

/-- The four bytes of a 32-bit word in memory order on a little-endian host; for a
word in network byte order this is the dotted quad. -/
def bytes (x : Nat) : List Nat :=
  [x % 2 ^ 8, (x >>> 8) % 2 ^ 8, (x >>> 16) % 2 ^ 8, (x >>> 24) % 2 ^ 8]

/-- C's `x << n` for a 32-bit `unsigned int` and an `int` count: the language leaves
the result undefined when the count is negative or not below the width 32. -/
def shl_u32 (x : Nat) (n : Int) : Option Nat :=
  if 0 ≤ n ∧ n < 32 then some ((x <<< n.toNat) % 2 ^ 32) else none

/-- The Vista build's `htonl ((0xffffffffU) << (32 - pUnicast->OnLinkPrefixLength))`. -/
def onLinkNetmask (OnLinkPrefixLength : Nat) : Option Nat :=
  (shl_u32 0xffffffff (32 - (OnLinkPrefixLength : Int))).map htonl

/-- The older build's `for` loop over the rows of `pIPAddrTable`, threading the pair
of `match` and `mask->sin_addr.s_addr`. -/
def tableScan (s_addr : Nat) : List MIB_IPADDRROW → Bool × Nat → Bool × Nat
  | [], st => st
  | row :: rest, (matched, mask) =>
    if row.dwAddr = s_addr then tableScan s_addr rest (true, row.dwMask)
    else tableScan s_addr rest (matched, mask)

/-- The older build's netmask block: the scan, then the `if (!match)` fallback. The
third argument is the word the mask holds before the scan. -/
def tableNetmask (table : List MIB_IPADDRROW) (s_addr mask0 : Nat) : Nat × List Warning :=
  let st := tableScan s_addr table (false, mask0)
  if st.1 then (st.2, []) else (0xffffffff, [Warning.netmaskFallback])

/-- The netmask word of either build for one unicast address together with the
warnings emitted; `none` when the build runs into undefined behaviour (an undefined
shift, or a read of the freed table). -/
def resolveNetmask (winver : Winver) (u : IP_ADAPTER_UNICAST_ADDRESS) :
    Option (Nat × List Warning) :=
  match winver with
  | Winver.vista => (onLinkNetmask u.OnLinkPrefixLength).map (fun m => (m, []))
  | Winver.preVista none => none
  | Winver.preVista (some table) =>
    some (tableNetmask table u.lpSockaddr.s_addr u.lpSockaddr.s_addr)

/-- The test `ok` of the inner loop. -/
def ok (ad : IP_ADAPTER_ADDRESSES) (u : IP_ADAPTER_UNICAST_ADDRESS) : Bool :=
  (ad.OperStatus == IfOperStatusUp) && (u.lpSockaddr.sa_family == AF_INET)

/-- The part of the inner loop body behind `if (!ok) continue;`: the record `a` and
the warnings emitted while it is filled. In the IPv4 branch the socket address is
duplicated three times, then the mask and the broadcast words are overwritten. The
IPv6 test of the Vista build spells its variable `lpSocketaddr`; it is read here as
`lpSockaddr`, and the branch is never entered since `ok` admits `AF_INET` only. -/
def fill (winver : Winver) (ad : IP_ADAPTER_ADDRESSES) (u : IP_ADAPTER_UNICAST_ADDRESS) :
    Option (ArvNetworkInterface × List Warning) :=
  let lpSockaddr := u.lpSockaddr
  let a := g_new0
  if lpSockaddr.sa_family = AF_INET then
    match resolveNetmask winver u with
    | none => none
    | some (m, ws) =>
      let mask := { lpSockaddr with s_addr := m }
      let broadaddr := { lpSockaddr with s_addr := lpSockaddr.s_addr ||| not32 mask.s_addr }
      some ({ a with addr := g_memdup (some lpSockaddr), netmask := some mask,
                     broadaddr := some broadaddr, name := some ad.FriendlyName }, ws)
  else
    let ws := match winver with
      | Winver.vista =>
        if lpSockaddr.sa_family = AF_INET6 then [Warning.ipv6NotImplemented] else []
      | Winver.preVista _ => []
    some ({ a with name := some ad.FriendlyName }, ws)

/-- The inner `for` loop over `pUnicast`, threading `ret` and the warnings. -/
def unicastLoop (winver : Winver) (ad : IP_ADAPTER_ADDRESSES) :
    List IP_ADAPTER_UNICAST_ADDRESS → List ArvNetworkInterface × List Warning →
    Option (List ArvNetworkInterface × List Warning)
  | [], st => some st
  | u :: rest, st =>
    if ok ad u then
      match fill winver ad u with
      | none => none
      | some (a, ws) => unicastLoop winver ad rest (g_list_prepend st.1 a, st.2 ++ ws)
    else unicastLoop winver ad rest st

/-- The outer `for` loop over `pAddrIter`. -/
def adapterLoop (winver : Winver) :
    List IP_ADAPTER_ADDRESSES → List ArvNetworkInterface × List Warning →
    Option (List ArvNetworkInterface × List Warning)
  | [], st => some st
  | ad :: rest, st =>
    match unicastLoop winver ad ad.FirstUnicastAddress st with
    | none => none
    | some st1 => adapterLoop winver rest st1

/-- What one call of `GetAdaptersAddresses` hands back: the status, the size written
to `outBufLen`, and the adapter list stored in the buffer (read only on success). -/
structure Reply where
  dwRetVal : Nat
  outBufLen : Nat
  pAddresses : List IP_ADAPTER_ADDRESSES

/-- The operating system as seen by the retry loop: the reply to a call, given the
number of earlier calls and the buffer size passed. -/
abbrev Os := Nat → Nat → Reply

/-- The variables of the `do ... while` loop, with counters for the calls of
`g_malloc (outBufLen)`, of `g_free (pAddresses)` and of `GetAdaptersAddresses`. -/
structure Retry where
  outBufLen : Nat
  iter : Nat
  dwRetVal : Nat
  pAddresses : List IP_ADAPTER_ADDRESSES
  mallocs : Nat
  frees : Nat
  calls : Nat
deriving DecidableEq

/-- The `do ... while ((dwRetVal == ERROR_BUFFER_OVERFLOW) && (iter<3))` loop. -/
def doWhile (os : Os) (st : Retry) : Retry :=
  let r := os st.calls st.outBufLen
  let st1 : Retry :=
    { st with outBufLen := r.outBufLen, dwRetVal := r.dwRetVal, pAddresses := r.pAddresses,
              mallocs := st.mallocs + 1, calls := st.calls + 1 }
  if st1.dwRetVal = ERROR_BUFFER_OVERFLOW then
    let st2 : Retry := { st1 with frees := st1.frees + 1, iter := st1.iter + 1 }
    if st2.dwRetVal = ERROR_BUFFER_OVERFLOW ∧ st2.iter < 3 then doWhile os st2 else st2
  else st1
termination_by 3 - st.iter
decreasing_by
  simp_wf
  rename_i h
  have h3 : st.iter + 1 < 3 := h.2
  omega

/-- The variables on entry to the retry loop; `dwRetVal` is assigned by the first
call before it is read. -/
def entry : Retry :=
  { outBufLen := 15000, iter := 0, dwRetVal := 0, pAddresses := [],
    mallocs := 0, frees := 0, calls := 0 }

/-- What a run of the function leaves behind: the returned list, the warnings in the
order emitted, and the counters of the retry loop. -/
structure Outcome where
  ret : List ArvNetworkInterface
  warnings : List Warning
  mallocs : Nat
  calls : Nat
deriving DecidableEq

/-- The warnings of the `GetIpAddrTable` block that precedes the retry loop. -/
def tableWarnings (winver : Winver) : List Warning :=
  match winver with
  | Winver.preVista none => [Warning.getIpAddrTableFailed]
  | _ => []

/-- The function from the test `dwRetVal != ERROR_SUCCESS` to its end, run on the
variables the retry loop leaves. With a freed table the final `g_free(pIPAddrTable)`
is a second release of the same block, hence `none`. -/
def afterQuery (winver : Winver) (st : Retry) : Option Outcome :=
  if st.dwRetVal ≠ ERROR_SUCCESS then
    some { ret := [], warnings := tableWarnings winver ++ [Warning.enumerateFailed st.dwRetVal],
           mallocs := st.mallocs, calls := st.calls }
  else
    match adapterLoop winver st.pAddresses ([], tableWarnings winver) with
    | none => none
    | some (ret, ws) =>
      match winver with
      | Winver.preVista none => none
      | _ => some { ret := g_list_reverse ret, warnings := ws,
                    mallocs := st.mallocs, calls := st.calls }

/-- The Win32 `arv_enumerate_network_interfaces`; `none` is undefined behaviour. -/
def arv_enumerate_network_interfaces (winver : Winver) (os : Os) : Option Outcome :=
  afterQuery winver (doWhile os entry)

/-! ### Vocabulary of the statements -/

/-- The pairs of an adapter and one of its unicast addresses that pass `ok`, adapters
in list order and, inside an adapter, unicast addresses in list order. -/
def candidates (ads : List IP_ADAPTER_ADDRESSES) :
    List (IP_ADAPTER_ADDRESSES × IP_ADAPTER_UNICAST_ADDRESS) :=
  ads.flatMap (fun ad => (ad.FirstUnicastAddress.filter (ok ad)).map (fun u => (ad, u)))

/-- The adapter lists on which the build stays within defined behaviour: on Vista and
later every address that passes `ok` has an on-link length from 1 to 32, on the older
build the address table was obtained. -/
def Defined (winver : Winver) (ads : List IP_ADAPTER_ADDRESSES) : Prop :=
  match winver with
  | Winver.vista =>
    ∀ p ∈ candidates ads, 1 ≤ p.2.OnLinkPrefixLength ∧ p.2.OnLinkPrefixLength ≤ 32
  | Winver.preVista table => table.isSome = true

/-- The adapter list with every unicast address of a family other than `AF_INET`
removed. -/
def onlyInet (ads : List IP_ADAPTER_ADDRESSES) : List IP_ADAPTER_ADDRESSES :=
  ads.map (fun ad =>
    { ad with FirstUnicastAddress :=
        ad.FirstUnicastAddress.filter (fun u => u.lpSockaddr.sa_family == AF_INET) })

/-- The operating system whose answers carry `onlyInet` of the adapter lists of `os`
and are otherwise those of `os`. -/
def onlyInetOs (os : Os) : Os :=
  fun n len => { os n len with pAddresses := onlyInet (os n len).pAddresses }

/-! ### Sample inputs -/

/-- Address 192.168.1.5 as a raw word in network byte order on a little-endian host. -/
def exampleAddr : Sockaddr := { sa_family := AF_INET, sin_port := 0, s_addr := 0x0501a8c0 }

/-- Three adapters: one up with the addresses 192.168.1.5, an IPv6 address and
10.0.0.10, one down, and the loopback adapter, up with 127.0.0.1. -/
def exampleAdapters : List IP_ADAPTER_ADDRESSES :=
  [ { OperStatus := IfOperStatusUp, FriendlyName := "Ethernet",
      FirstUnicastAddress :=
        [ { lpSockaddr := exampleAddr, OnLinkPrefixLength := 24 },
          { lpSockaddr := { sa_family := AF_INET6, sin_port := 0, s_addr := 0 },
            OnLinkPrefixLength := 64 },
          { lpSockaddr := { sa_family := AF_INET, sin_port := 0, s_addr := 0x0a00000a },
            OnLinkPrefixLength := 8 } ] },
    { OperStatus := 2, FriendlyName := "Wi-Fi",
      FirstUnicastAddress :=
        [ { lpSockaddr := { sa_family := AF_INET, sin_port := 0, s_addr := 0x010010ac },
            OnLinkPrefixLength := 16 } ] },
    { OperStatus := IfOperStatusUp, FriendlyName := "Loopback",
      FirstUnicastAddress :=
        [ { lpSockaddr := { sa_family := AF_INET, sin_port := 0, s_addr := 0x0100007f },
            OnLinkPrefixLength := 8 } ] } ]

/-- The records the Vista build returns for `exampleAdapters`: 192.168.1.5 with mask
255.255.255.0, 10.0.0.10 with mask 255.0.0.0, 127.0.0.1 with mask 255.0.0.0. -/
def exampleVistaRecords : List ArvNetworkInterface :=
  [ { addr := some exampleAddr,
      netmask := some { exampleAddr with s_addr := 0x00ffffff },
      broadaddr := some { exampleAddr with s_addr := 0xff01a8c0 },
      name := some "Ethernet" },
    { addr := some { sa_family := AF_INET, sin_port := 0, s_addr := 0x0a00000a },
      netmask := some { sa_family := AF_INET, sin_port := 0, s_addr := 0x000000ff },
      broadaddr := some { sa_family := AF_INET, sin_port := 0, s_addr := 0xffffff0a },
      name := some "Ethernet" },
    { addr := some { sa_family := AF_INET, sin_port := 0, s_addr := 0x0100007f },
      netmask := some { sa_family := AF_INET, sin_port := 0, s_addr := 0x000000ff },
      broadaddr := some { sa_family := AF_INET, sin_port := 0, s_addr := 0xffffff7f },
      name := some "Loopback" } ]

/-- The records the older build returns for `exampleAdapters` with `exampleTable`:
192.168.1.5 with mask 255.255.0.0, 10.0.0.10 with the fallback mask, 127.0.0.1 with
mask 255.0.0.0. -/
def exampleTableRecords : List ArvNetworkInterface :=
  [ { addr := some exampleAddr,
      netmask := some { exampleAddr with s_addr := 0x0000ffff },
      broadaddr := some { exampleAddr with s_addr := 0xffffa8c0 },
      name := some "Ethernet" },
    { addr := some { sa_family := AF_INET, sin_port := 0, s_addr := 0x0a00000a },
      netmask := some { sa_family := AF_INET, sin_port := 0, s_addr := 0xffffffff },
      broadaddr := some { sa_family := AF_INET, sin_port := 0, s_addr := 0x0a00000a },
      name := some "Ethernet" },
    { addr := some { sa_family := AF_INET, sin_port := 0, s_addr := 0x0100007f },
      netmask := some { sa_family := AF_INET, sin_port := 0, s_addr := 0x000000ff },
      broadaddr := some { sa_family := AF_INET, sin_port := 0, s_addr := 0xffffff7f },
      name := some "Loopback" } ]

/-- An operating system whose first query succeeds with `exampleAdapters`. -/
def exampleOs : Os :=
  fun _ _ => { dwRetVal := ERROR_SUCCESS, outBufLen := 15000, pAddresses := exampleAdapters }

/-- An operating system that answers every query with `ERROR_BUFFER_OVERFLOW`. -/
def overflowOs : Os :=
  fun _ len => { dwRetVal := ERROR_BUFFER_OVERFLOW, outBufLen := len + 1, pAddresses := [] }

/-- A table in which two rows carry the address 192.168.1.5 with different masks. -/
def exampleTable : List MIB_IPADDRROW :=
  [ { dwAddr := 0x0100007f, dwMask := 0x000000ff },
    { dwAddr := 0x0501a8c0, dwMask := 0x00ffffff },
    { dwAddr := 0x0501a8c0, dwMask := 0x0000ffff } ]

end Win32

/-! ## Lemmas on the POSIX loop -/

theorem Posix.loop_eq (l : List Posix.Ifaddrs) (ret : List ArvNetworkInterface) :
    Posix.loop l ret = ((l.filter Posix.accepts).map Posix.fill).reverse ++ ret := by
  induction l generalizing ret with
  | nil => simp [Posix.loop]
  | cons e rest ih =>
    by_cases h : Posix.accepts e <;> simp [Posix.loop, h, ih, g_list_prepend]

theorem Posix.enumerate_some (l : List Posix.Ifaddrs) :
    Posix.arv_enumerate_network_interfaces (some l) = (l.filter Posix.accepts).map Posix.fill := by
  simp [Posix.arv_enumerate_network_interfaces, g_list_reverse, Posix.loop_eq]

theorem Posix.fill_fields (e : Posix.Ifaddrs) :
    (Posix.fill e).addr = e.ifa_addr ∧ (Posix.fill e).netmask = e.ifa_netmask ∧
    (Posix.fill e).broadaddr = e.ifu_broadaddr ∧ (Posix.fill e).name = e.ifa_name := by
  obtain ⟨n, f, a, m, b⟩ := e
  cases n <;> cases m <;> cases b <;> simp [Posix.fill, g_new0, g_memdup]

theorem Posix.accepts_iff (e : Posix.Ifaddrs) :
    Posix.accepts e = true ↔
      (e.ifa_flags &&& IFF_UP ≠ 0 ∧ e.ifa_flags &&& IFF_POINTOPOINT = 0 ∧
        ∃ sa, e.ifa_addr = some sa ∧ sa.sa_family = AF_INET) := by
  obtain ⟨n, f, a, m, b⟩ := e
  cases a <;> simp [Posix.accepts, and_assoc]

/-! ## Lemmas on byte order and on the 32-bit complement -/

open Win32

theorem Win32.testBit_htonl (x i : Nat) :
    (htonl x).testBit i =
      if i < 8 then x.testBit (i + 24)
      else if i < 16 then x.testBit (i + 8)
      else if i < 24 then x.testBit (i - 8)
      else if i < 32 then x.testBit (i - 24)
      else false := by
  unfold htonl
  simp only [Nat.testBit_or, Nat.testBit_shiftLeft, Nat.testBit_shiftRight, Nat.testBit_mod_two_pow]
  by_cases h1 : i < 8
  · have e : 24 + i = i + 24 := by omega
    have a1 : ¬ 24 ≤ i := by omega
    have a2 : ¬ 16 ≤ i := by omega
    have a3 : ¬ 8 ≤ i := by omega
    simp [h1, e, a1, a2, a3]
  · by_cases h2 : i < 16
    · have e : 16 + (i - 8) = i + 8 := by omega
      have a1 : ¬ 24 ≤ i := by omega
      have a2 : ¬ 16 ≤ i := by omega
      have a3 : 8 ≤ i := by omega
      have a4 : i - 8 < 8 := by omega
      have a5 : ¬ 24 + i < 8 := by omega
      simp [h1, h2, e, a1, a2, a3, a4]
    · by_cases h3 : i < 24
      · have e : 8 + (i - 16) = i - 8 := by omega
        have a1 : ¬ 24 ≤ i := by omega
        have a2 : 16 ≤ i := by omega
        have a3 : 8 ≤ i := by omega
        have a4 : ¬ i - 8 < 8 := by omega
        have a5 : i - 16 < 8 := by omega
        simp [h1, h2, h3, e, a1, a2, a3, a4, a5]
      · by_cases h4 : i < 32
        · have a1 : 24 ≤ i := by omega
          have a2 : 16 ≤ i := by omega
          have a3 : 8 ≤ i := by omega
          have a4 : ¬ i - 8 < 8 := by omega
          have a5 : ¬ i - 16 < 8 := by omega
          have a6 : i - 24 < 8 := by omega
          simp [h1, h2, h3, h4, a1, a2, a3, a4, a5, a6]
        · have a1 : 24 ≤ i := by omega
          have a2 : 16 ≤ i := by omega
          have a3 : 8 ≤ i := by omega
          have a4 : ¬ i - 8 < 8 := by omega
          have a5 : ¬ i - 16 < 8 := by omega
          have a6 : ¬ i - 24 < 8 := by omega
          simp [h1, h2, h3, h4, a1, a2, a3, a4, a5, a6]

theorem Win32.htonl_or (x y : Nat) : htonl (x ||| y) = htonl x ||| htonl y := by
  apply Nat.eq_of_testBit_eq
  intro i
  simp only [Nat.testBit_or, Win32.testBit_htonl]
  split_ifs <;> simp

theorem Win32.testBit_not32 (x i : Nat) :
    (not32 x).testBit i = (decide (i < 32) && !x.testBit i) := by
  unfold not32
  simp only [Nat.testBit_xor, Nat.testBit_mod_two_pow, Nat.testBit_two_pow_sub_one]
  by_cases h : i < 32 <;> simp [h]

theorem Win32.htonl_not32 (x : Nat) : htonl (not32 x) = not32 (htonl x) := by
  apply Nat.eq_of_testBit_eq
  intro i
  simp only [Win32.testBit_not32, Win32.testBit_htonl]
  by_cases h1 : i < 8
  · have a : i + 24 < 32 := by omega
    have b : i < 32 := by omega
    simp [h1, a, b]
  · by_cases h2 : i < 16
    · have a : i + 8 < 32 := by omega
      have b : i < 32 := by omega
      simp [h1, h2, a, b]
    · by_cases h3 : i < 24
      · have a : i - 8 < 32 := by omega
        have b : i < 32 := by omega
        simp [h1, h2, h3, a, b]
      · by_cases h4 : i < 32
        · have a : i - 24 < 32 := by omega
          simp [h1, h2, h3, h4, a]
        · simp [h1, h2, h3, h4]

theorem Win32.htonl_htonl (x : Nat) : htonl (htonl x) = x % 2 ^ 32 := by
  apply Nat.eq_of_testBit_eq
  intro i
  simp only [Win32.testBit_htonl, Nat.testBit_mod_two_pow]
  by_cases h1 : i < 8
  · have a1 : ¬ i + 24 < 8 := by omega
    have a2 : ¬ i + 24 < 16 := by omega
    have a3 : ¬ i + 24 < 24 := by omega
    have a4 : i + 24 < 32 := by omega
    have b : i < 32 := by omega
    simp [h1, a1, a2, a3, a4, b]
  · by_cases h2 : i < 16
    · have a1 : ¬ i + 8 < 8 := by omega
      have a2 : ¬ i + 8 < 16 := by omega
      have a3 : i + 8 < 24 := by omega
      have b : i < 32 := by omega
      simp [h1, h2, a1, a2, a3, b]
    · by_cases h3 : i < 24
      · have a1 : ¬ i - 8 < 8 := by omega
        have a2 : i - 8 < 16 := by omega
        have b : i < 32 := by omega
        have e : i - 8 + 8 = i := by omega
        simp [h1, h2, h3, a1, a2, b, e]
      · by_cases h4 : i < 32
        · have a1 : i - 24 < 8 := by omega
          have e : i - 24 + 24 = i := by omega
          simp [h1, h2, h3, h4, a1, e]
        · simp [h1, h2, h3, h4]

theorem Win32.shl_mask (k : Nat) (hk : k < 32) :
    (0xffffffff <<< k) % 2 ^ 32 = 2 ^ 32 - 2 ^ k := by
  interval_cases k <;> rfl

theorem Win32.not32_mask (k : Nat) (hk : k ≤ 32) : not32 (2 ^ 32 - 2 ^ k) = 2 ^ k - 1 := by
  interval_cases k <;> rfl

/-! ## Lemmas on the Win32 loops -/

theorem Win32.unicastLoop_ret (winver : Winver) (ad : IP_ADAPTER_ADDRESSES)
    (us : List IP_ADAPTER_UNICAST_ADDRESS) (st st1 : List ArvNetworkInterface × List Warning)
    (h : unicastLoop winver ad us st = some st1) :
    st1.1.reverse.map some = st.1.reverse.map some ++
      (us.filter (ok ad)).map (fun u => (fill winver ad u).map Prod.fst) := by
  induction us generalizing st with
  | nil =>
    simp only [unicastLoop, Option.some.injEq] at h
    subst h
    simp
  | cons u rest ih =>
    by_cases hok : ok ad u = true
    · cases hf : fill winver ad u with
      | none => simp [unicastLoop, hok, hf] at h
      | some aw =>
        obtain ⟨a, ws⟩ := aw
        simp only [unicastLoop, hok, hf, if_true] at h
        have := ih _ h
        simp [this, hok, hf, g_list_prepend]
    · simp only [unicastLoop, hok, Bool.false_eq_true, if_false] at h
      have := ih _ h
      simp [this, hok]

theorem Win32.adapterLoop_ret (winver : Winver) (ads : List IP_ADAPTER_ADDRESSES)
    (st st1 : List ArvNetworkInterface × List Warning)
    (h : adapterLoop winver ads st = some st1) :
    st1.1.reverse.map some = st.1.reverse.map some ++
      (candidates ads).map (fun p => (fill winver p.1 p.2).map Prod.fst) := by
  induction ads generalizing st with
  | nil =>
    simp only [adapterLoop, Option.some.injEq] at h
    subst h
    simp [candidates]
  | cons ad rest ih =>
    cases hu : unicastLoop winver ad ad.FirstUnicastAddress st with
    | none => simp [adapterLoop, hu] at h
    | some st2 =>
      simp only [adapterLoop, hu] at h
      have h1 := Win32.unicastLoop_ret winver ad _ st st2 hu
      have h2 := ih _ h
      rw [h2, h1]
      simp [candidates, List.map_map, Function.comp_def]

theorem Win32.unicastLoop_isSome (winver : Winver) (ad : IP_ADAPTER_ADDRESSES)
    (us : List IP_ADAPTER_UNICAST_ADDRESS)
    (hd : ∀ u ∈ us, ok ad u = true → (fill winver ad u).isSome = true)
    (st : List ArvNetworkInterface × List Warning) :
    (unicastLoop winver ad us st).isSome = true := by
  induction us generalizing st with
  | nil => simp [unicastLoop]
  | cons u rest ih =>
    have ih1 := ih (fun v hv => hd v (List.mem_cons_of_mem _ hv))
    by_cases hok : ok ad u = true
    · have := hd u (List.mem_cons_self _ _) hok
      obtain ⟨aw, haw⟩ := Option.isSome_iff_exists.mp this
      simp [unicastLoop, hok, haw, ih1]
    · simp [unicastLoop, hok, ih1]

theorem Win32.adapterLoop_isSome (winver : Winver) (ads : List IP_ADAPTER_ADDRESSES)
    (hd : ∀ p ∈ candidates ads, (fill winver p.1 p.2).isSome = true)
    (st : List ArvNetworkInterface × List Warning) :
    (adapterLoop winver ads st).isSome = true := by
  induction ads generalizing st with
  | nil => simp [adapterLoop]
  | cons ad rest ih =>
    have h1 : (unicastLoop winver ad ad.FirstUnicastAddress st).isSome = true := by
      apply Win32.unicastLoop_isSome
      intro u hu hok
      apply hd (ad, u)
      simp only [candidates, List.flatMap_cons, List.mem_append, List.mem_map, List.mem_filter]
      exact Or.inl ⟨u, ⟨hu, hok⟩, rfl⟩
    obtain ⟨st2, hst2⟩ := Option.isSome_iff_exists.mp h1
    simp only [adapterLoop, hst2]
    apply ih
    intro p hp
    apply hd p
    simp only [candidates, List.flatMap_cons, List.mem_append]
    exact Or.inr hp

/-! ## Lemmas on the Win32 record -/

theorem Win32.ok_iff (ad : IP_ADAPTER_ADDRESSES) (u : IP_ADAPTER_UNICAST_ADDRESS) :
    ok ad u = true ↔ ad.OperStatus = IfOperStatusUp ∧ u.lpSockaddr.sa_family = AF_INET := by
  simp [ok]

theorem Win32.fill_inet (winver : Winver) (ad : IP_ADAPTER_ADDRESSES)
    (u : IP_ADAPTER_UNICAST_ADDRESS) (hf : u.lpSockaddr.sa_family = AF_INET) :
    fill winver ad u =
      (resolveNetmask winver u).map (fun mw =>
        ({ addr := some u.lpSockaddr,
           netmask := some { u.lpSockaddr with s_addr := mw.1 },
           broadaddr := some { u.lpSockaddr with s_addr := u.lpSockaddr.s_addr ||| not32 mw.1 },
           name := some ad.FriendlyName }, mw.2)) := by
  unfold fill
  simp only [hf, if_true]
  cases resolveNetmask winver u with
  | none => rfl
  | some mw => rfl

theorem Win32.shl_u32_valid (p : Nat) (h1 : 1 ≤ p) (h2 : p ≤ 32) :
    shl_u32 0xffffffff (32 - (p : Int)) = some (2 ^ 32 - 2 ^ (32 - p)) := by
  have hc : (0 : Int) ≤ 32 - (p : Int) ∧ 32 - (p : Int) < 32 := by omega
  have ht : (32 - (p : Int)).toNat = 32 - p := by omega
  unfold shl_u32
  rw [if_pos hc, ht, Win32.shl_mask (32 - p) (by omega)]

theorem Win32.onLinkNetmask_valid (p : Nat) (h1 : 1 ≤ p) (h2 : p ≤ 32) :
    onLinkNetmask p = some (htonl (2 ^ 32 - 2 ^ (32 - p))) := by
  simp [onLinkNetmask, Win32.shl_u32_valid p h1 h2]

theorem Win32.onLinkNetmask_isSome_iff (p : Nat) :
    (onLinkNetmask p).isSome = true ↔ 1 ≤ p ∧ p ≤ 32 := by
  unfold onLinkNetmask shl_u32
  by_cases hc : (0 : Int) ≤ 32 - (p : Int) ∧ 32 - (p : Int) < 32
  · simp only [if_pos hc, Option.map_some', Option.isSome_some, true_iff]
    omega
  · simp only [if_neg hc, Option.map_none', Option.isSome_none, Bool.false_eq_true, false_iff]
    omega

theorem Win32.resolveNetmask_isSome (winver : Winver) (ads : List IP_ADAPTER_ADDRESSES)
    (hd : Defined winver ads) (p : IP_ADAPTER_ADDRESSES × IP_ADAPTER_UNICAST_ADDRESS)
    (hp : p ∈ candidates ads) : (resolveNetmask winver p.2).isSome = true := by
  cases winver with
  | vista =>
    have := hd p hp
    simp [resolveNetmask, Win32.onLinkNetmask_isSome_iff, this]
  | preVista table =>
    cases table with
    | none => simp [Defined] at hd
    | some t => simp [resolveNetmask]

theorem Win32.mem_candidates (ads : List IP_ADAPTER_ADDRESSES)
    (p : IP_ADAPTER_ADDRESSES × IP_ADAPTER_UNICAST_ADDRESS) :
    p ∈ candidates ads ↔ p.1 ∈ ads ∧ p.2 ∈ p.1.FirstUnicastAddress ∧ ok p.1 p.2 = true := by
  obtain ⟨ad, u⟩ := p
  simp only [candidates, List.mem_flatMap, List.mem_map, List.mem_filter, Prod.mk.injEq]
  constructor
  · rintro ⟨ad1, h1, u1, ⟨h2, h3⟩, rfl, rfl⟩
    exact ⟨h1, h2, h3⟩
  · rintro ⟨h1, h2, h3⟩
    exact ⟨ad, h1, u, ⟨h2, h3⟩, rfl, rfl⟩

theorem Win32.fill_isSome (winver : Winver) (ads : List IP_ADAPTER_ADDRESSES)
    (hd : Defined winver ads) (p : IP_ADAPTER_ADDRESSES × IP_ADAPTER_UNICAST_ADDRESS)
    (hp : p ∈ candidates ads) : (fill winver p.1 p.2).isSome = true := by
  have hok := ((Win32.mem_candidates ads p).mp hp).2.2
  rw [Win32.fill_inet winver p.1 p.2 ((Win32.ok_iff _ _).mp hok).2]
  simpa using Win32.resolveNetmask_isSome winver ads hd p hp

/-! ## Lemmas on the whole Win32 function -/

theorem Win32.afterQuery_failure (winver : Winver) (st : Retry)
    (h : st.dwRetVal ≠ ERROR_SUCCESS) :
    afterQuery winver st =
      some { ret := [], warnings := tableWarnings winver ++ [Warning.enumerateFailed st.dwRetVal],
             mallocs := st.mallocs, calls := st.calls } := by
  simp [afterQuery, h]

theorem Win32.afterQuery_ret (winver : Winver) (st : Retry) (out : Outcome)
    (hs : st.dwRetVal = ERROR_SUCCESS) (h : afterQuery winver st = some out) :
    out.ret.map some =
      (candidates st.pAddresses).map (fun p => (fill winver p.1 p.2).map Prod.fst) ∧
    out.mallocs = st.mallocs ∧ out.calls = st.calls := by
  unfold afterQuery at h
  simp only [hs, ne_eq, not_true_eq_false, if_false] at h
  cases hl : adapterLoop winver st.pAddresses ([], tableWarnings winver) with
  | none => simp [hl] at h
  | some st1 =>
    obtain ⟨ret, ws⟩ := st1
    have hr := Win32.adapterLoop_ret winver st.pAddresses _ _ hl
    simp only [hl] at h
    cases winver with
    | vista =>
      simp only [Option.some.injEq] at h
      subst h
      simpa [g_list_reverse] using hr
    | preVista table =>
      cases table with
      | none => simp at h
      | some t =>
        simp only [Option.some.injEq] at h
        subst h
        simpa [g_list_reverse] using hr

theorem Win32.afterQuery_defined (winver : Winver) (st : Retry)
    (hd : Defined winver st.pAddresses) : (afterQuery winver st).isSome = true := by
  by_cases hs : st.dwRetVal = ERROR_SUCCESS
  · have hl := Win32.adapterLoop_isSome winver st.pAddresses
      (Win32.fill_isSome winver st.pAddresses hd) ([], tableWarnings winver)
    obtain ⟨st1, hst1⟩ := Option.isSome_iff_exists.mp hl
    unfold afterQuery
    simp only [hs, ne_eq, not_true_eq_false, if_false, hst1]
    cases winver with
    | vista => simp
    | preVista table =>
      cases table with
      | none => simp [Defined] at hd
      | some t => simp
  · simp [Win32.afterQuery_failure winver st hs]

/-- Every record of a returned list was filled from a pair that passes `ok`. -/
theorem Win32.mem_ret (winver : Winver) (os : Os) (out : Outcome)
    (h : arv_enumerate_network_interfaces winver os = some out)
    (r : ArvNetworkInterface) (hr : r ∈ out.ret) :
    ∃ p ∈ candidates (doWhile os entry).pAddresses, ∃ mw,
      resolveNetmask winver p.2 = some mw ∧
      r = { addr := some p.2.lpSockaddr,
            netmask := some { p.2.lpSockaddr with s_addr := mw.1 },
            broadaddr := some { p.2.lpSockaddr with
                                s_addr := p.2.lpSockaddr.s_addr ||| not32 mw.1 },
            name := some p.1.FriendlyName } := by
  unfold arv_enumerate_network_interfaces at h
  by_cases hs : (doWhile os entry).dwRetVal = ERROR_SUCCESS
  · have h1 := (Win32.afterQuery_ret winver _ out hs h).1
    have h2 : some r ∈ out.ret.map some := List.mem_map_of_mem _ hr
    rw [h1, List.mem_map] at h2
    obtain ⟨p, hp, hfp⟩ := h2
    have hok := ((Win32.mem_candidates _ p).mp hp).2.2
    rw [Win32.fill_inet winver p.1 p.2 ((Win32.ok_iff _ _).mp hok).2] at hfp
    cases hres : resolveNetmask winver p.2 with
    | none => simp [hres] at hfp
    | some mw =>
      refine ⟨p, hp, mw, hres, ?_⟩
      simp only [hres, Option.map_some', Option.some.injEq] at hfp
      exact hfp.symm
  · rw [Win32.afterQuery_failure winver _ hs] at h
    simp only [Option.some.injEq] at h
    subst h
    simp at hr

/-! ## Lemmas on the retry loop -/

theorem Win32.doWhile_overflow (os : Os)
    (h : ∀ n len, (os n len).dwRetVal = ERROR_BUFFER_OVERFLOW) :
    (doWhile os entry).dwRetVal = ERROR_BUFFER_OVERFLOW ∧
    (doWhile os entry).mallocs = 3 ∧ (doWhile os entry).calls = 3 ∧
    (doWhile os entry).frees = 3 ∧ (doWhile os entry).iter = 3 := by
  rw [doWhile]
  simp only [h, entry, if_true, true_and]
  rw [if_pos (by decide)]
  rw [doWhile]
  simp only [h, if_true, true_and]
  rw [if_pos (by decide)]
  rw [doWhile]
  simp only [h, if_true, true_and]
  rw [if_neg (by decide)]
  simp

theorem Win32.doWhile_success (os : Os)
    (h : (os 0 15000).dwRetVal = ERROR_SUCCESS) :
    (doWhile os entry).dwRetVal = ERROR_SUCCESS ∧
    (doWhile os entry).pAddresses = (os 0 15000).pAddresses ∧
    (doWhile os entry).mallocs = 1 ∧ (doWhile os entry).calls = 1 := by
  rw [doWhile]
  simp [h, entry, ERROR_SUCCESS, ERROR_BUFFER_OVERFLOW]

theorem Win32.doWhile_pAddresses_irrelevant (os : Os) (st : Retry)
    (pa : List IP_ADAPTER_ADDRESSES) :
    doWhile os { st with pAddresses := pa } = doWhile os st := by
  conv_lhs => rw [doWhile]
  conv_rhs => rw [doWhile]

theorem Win32.doWhile_onlyInetOs (os : Os) (st : Retry) :
    doWhile (onlyInetOs os) st =
      { doWhile os st with pAddresses := onlyInet (doWhile os st).pAddresses } := by
  induction st using doWhile.induct os with
  | case1 st r st1 h1 st2 h2 ih =>
    have e := Win32.doWhile_pAddresses_irrelevant (onlyInetOs os) st2 (onlyInet r.pAddresses)
    conv_lhs => rw [doWhile]
    conv_rhs => rw [doWhile]
    have h1a : (os st.calls st.outBufLen).dwRetVal = ERROR_BUFFER_OVERFLOW := h1
    have h2a : st.iter + 1 < 3 := h2.2
    simp only [onlyInetOs, h1a, h2a, if_true, and_self]
    simp only [onlyInetOs, st2, st1, r, h1a] at e ih
    rw [e, ih]
  | case2 st r st1 h1 st2 h2 =>
    conv_lhs => rw [doWhile]
    conv_rhs => rw [doWhile]
    have h1a : (os st.calls st.outBufLen).dwRetVal = ERROR_BUFFER_OVERFLOW := h1
    have h2a : ¬ st.iter + 1 < 3 := fun h => h2 ⟨h1, h⟩
    simp only [onlyInetOs, h1a, h2a, if_true, and_false, if_false]
  | case3 st r st1 h1 =>
    conv_lhs => rw [doWhile]
    conv_rhs => rw [doWhile]
    have h1a : ¬ (os st.calls st.outBufLen).dwRetVal = ERROR_BUFFER_OVERFLOW := h1
    simp only [onlyInetOs, h1a, if_false]

theorem Win32.doWhile_counters (os : Os) (st : Retry) :
    (doWhile os st).calls ≤ st.calls + max 1 (3 - st.iter) ∧ st.calls < (doWhile os st).calls ∧
    (doWhile os st).mallocs + st.calls = (doWhile os st).calls + st.mallocs := by
  induction st using doWhile.induct os with
  | case1 st r st1 h1 st2 h2 ih =>
    have h1a : (os st.calls st.outBufLen).dwRetVal = ERROR_BUFFER_OVERFLOW := h1
    have h2a : st.iter + 1 < 3 := h2.2
    rw [doWhile]
    simp only [h1a, h2a, if_true, and_self]
    simp only [st2, st1, r, h1a] at ih
    omega
  | case2 st r st1 h1 st2 h2 =>
    have h1a : (os st.calls st.outBufLen).dwRetVal = ERROR_BUFFER_OVERFLOW := h1
    have h2a : ¬ st.iter + 1 < 3 := fun h => h2 ⟨h1, h⟩
    rw [doWhile]
    simp only [h1a, h2a, if_true, and_false, if_false]
    omega
  | case3 st r st1 h1 =>
    have h1a : ¬ (os st.calls st.outBufLen).dwRetVal = ERROR_BUFFER_OVERFLOW := h1
    rw [doWhile]
    simp only [h1a, if_false]
    omega

/-- Whatever the operating system answers, the retry loop allocates as often as it
queries, at least once and at most 3 times. -/
theorem Win32.doWhile_at_most_three (os : Os) :
    (doWhile os entry).mallocs = (doWhile os entry).calls ∧
    1 ≤ (doWhile os entry).calls ∧ (doWhile os entry).calls ≤ 3 := by
  have h := Win32.doWhile_counters os entry
  simp only [entry] at h
  simp only [entry]
  omega

/-! ## Lemmas on the netmask strategies -/

theorem Win32.ntohl_onLinkNetmask (p : Nat) (h1 : 1 ≤ p) (h2 : p ≤ 32) :
    ∃ m, onLinkNetmask p = some m ∧ ntohl m = 2 ^ 32 - 2 ^ (32 - p) ∧
      ∀ i, (ntohl m).testBit i = decide (32 - p ≤ i ∧ i < 32) := by
  refine ⟨_, Win32.onLinkNetmask_valid p h1 h2, ?_, ?_⟩
  · have hlt : 2 ^ 32 - 2 ^ (32 - p) < 2 ^ 32 := by
      have : 0 < 2 ^ (32 - p) := Nat.two_pow_pos _
      omega
    rw [ntohl, Win32.htonl_htonl, Nat.mod_eq_of_lt hlt]
  · intro i
    have hlt : 2 ^ 32 - 2 ^ (32 - p) < 2 ^ 32 := by
      have : 0 < 2 ^ (32 - p) := Nat.two_pow_pos _
      omega
    rw [ntohl, Win32.htonl_htonl, Nat.mod_eq_of_lt hlt]
    rw [← Win32.shl_mask (32 - p) (by omega)]
    simp only [Nat.testBit_mod_two_pow, Nat.testBit_shiftLeft]
    have hff : (0xffffffff : Nat) = 2 ^ 32 - 1 := by decide
    rw [hff, Nat.testBit_two_pow_sub_one]
    by_cases ha : 32 - p ≤ i <;> by_cases hb : i < 32 <;> simp [ha, hb]
    omega

/-- For an on-link length from 1 to 32 the Vista build fills a record whose broadcast
word, read in host order, keeps the network bits of the address and has every host
bit set. -/
theorem Win32.vista_broadcast_host_order (ad : IP_ADAPTER_ADDRESSES)
    (u : IP_ADAPTER_UNICAST_ADDRESS) (hf : u.lpSockaddr.sa_family = AF_INET)
    (h1 : 1 ≤ u.OnLinkPrefixLength) (h2 : u.OnLinkPrefixLength ≤ 32) :
    ∃ r b, fill Winver.vista ad u = some (r, []) ∧ r.broadaddr = some b ∧
      ntohl b.s_addr =
        ntohl u.lpSockaddr.s_addr ||| (2 ^ (32 - u.OnLinkPrefixLength) - 1) := by
  have hlt : 2 ^ 32 - 2 ^ (32 - u.OnLinkPrefixLength) < 2 ^ 32 := by
    have : 0 < 2 ^ (32 - u.OnLinkPrefixLength) := Nat.two_pow_pos _
    omega
  rw [Win32.fill_inet Winver.vista ad u hf]
  simp only [resolveNetmask, Win32.onLinkNetmask_valid _ h1 h2, Option.map_some']
  refine ⟨_, _, rfl, rfl, ?_⟩
  simp only [ntohl, Win32.htonl_or, Win32.htonl_not32, Win32.htonl_htonl,
    Nat.mod_eq_of_lt hlt]
  rw [Win32.not32_mask _ (by omega)]

theorem Win32.tableScan_no_match (s_addr : Nat) (table : List MIB_IPADDRROW)
    (h : ∀ row ∈ table, row.dwAddr ≠ s_addr) (st : Bool × Nat) :
    tableScan s_addr table st = st := by
  induction table generalizing st with
  | nil => rfl
  | cons row rest ih =>
    obtain ⟨matched, mask⟩ := st
    have h1 : row.dwAddr ≠ s_addr := h row (List.mem_cons_self _ _)
    simp only [tableScan, h1, if_false]
    exact ih (fun r hr => h r (List.mem_cons_of_mem _ hr)) _

theorem Win32.tableScan_append (s_addr : Nat) (t1 t2 : List MIB_IPADDRROW) (st : Bool × Nat) :
    tableScan s_addr (t1 ++ t2) st = tableScan s_addr t2 (tableScan s_addr t1 st) := by
  induction t1 generalizing st with
  | nil => rfl
  | cons row rest ih =>
    obtain ⟨matched, mask⟩ := st
    by_cases h : row.dwAddr = s_addr <;> simp [tableScan, h, ih]

/-- The scan of the table ends with the mask of the last row that carries the
address. -/
theorem Win32.tableScan_last (s_addr : Nat) (table : List MIB_IPADDRROW) (row : MIB_IPADDRROW)
    (h : table.reverse.find? (fun r => r.dwAddr == s_addr) = some row) (st : Bool × Nat) :
    tableScan s_addr table st = (true, row.dwMask) := by
  induction table using List.reverseRecOn generalizing st with
  | nil => simp at h
  | append_singleton rest last ih =>
    rw [Win32.tableScan_append]
    rw [List.reverse_append, List.reverse_singleton, List.singleton_append] at h
    by_cases hl : last.dwAddr = s_addr
    · simp only [List.find?_cons, hl, beq_self_eq_true, Option.some.injEq] at h
      subst h
      obtain ⟨m1, m2⟩ := tableScan s_addr rest st
      simp [tableScan, hl]
    · have hb : (last.dwAddr == s_addr) = false := by simp [hl]
      simp only [List.find?_cons, hb] at h
      rw [ih h st]
      simp [tableScan, hl]

/-! ## Lemmas on entries of other families -/

theorem Win32.unicastLoop_congr (winver : Winver) (ad ad1 : IP_ADAPTER_ADDRESSES)
    (h1 : ad.OperStatus = ad1.OperStatus) (h2 : ad.FriendlyName = ad1.FriendlyName)
    (us : List IP_ADAPTER_UNICAST_ADDRESS) (st : List ArvNetworkInterface × List Warning) :
    unicastLoop winver ad us st = unicastLoop winver ad1 us st := by
  induction us generalizing st with
  | nil => rfl
  | cons u rest ih =>
    have e1 : ok ad u = ok ad1 u := by simp [ok, h1]
    have e2 : fill winver ad u = fill winver ad1 u := by simp [fill, h2]
    simp only [unicastLoop, e1, e2, ih]

theorem Win32.unicastLoop_filter (winver : Winver) (ad : IP_ADAPTER_ADDRESSES)
    (us : List IP_ADAPTER_UNICAST_ADDRESS) (st : List ArvNetworkInterface × List Warning) :
    unicastLoop winver ad (us.filter (fun u => u.lpSockaddr.sa_family == AF_INET)) st =
      unicastLoop winver ad us st := by
  induction us generalizing st with
  | nil => rfl
  | cons u rest ih =>
    by_cases hf : u.lpSockaddr.sa_family = AF_INET
    · simp only [hf, beq_self_eq_true, List.filter_cons_of_pos, unicastLoop, ih]
    · have hb : (u.lpSockaddr.sa_family == AF_INET) = false := by simp [hf]
      have hok : ok ad u = false := by simp [ok, hf]
      simp only [List.filter_cons, hb, unicastLoop, hok, Bool.false_eq_true, if_false, ih]

theorem Win32.adapterLoop_onlyInet (winver : Winver) (ads : List IP_ADAPTER_ADDRESSES)
    (st : List ArvNetworkInterface × List Warning) :
    adapterLoop winver (onlyInet ads) st = adapterLoop winver ads st := by
  induction ads generalizing st with
  | nil => rfl
  | cons ad rest ih =>
    have e : onlyInet (ad :: rest) =
        { ad with FirstUnicastAddress :=
            ad.FirstUnicastAddress.filter (fun u => u.lpSockaddr.sa_family == AF_INET) } ::
          onlyInet rest := rfl
    have e1 := Win32.unicastLoop_filter winver
      { ad with FirstUnicastAddress :=
          ad.FirstUnicastAddress.filter (fun u => u.lpSockaddr.sa_family == AF_INET) }
      ad.FirstUnicastAddress st
    have e2 := Win32.unicastLoop_congr winver
      { ad with FirstUnicastAddress :=
          ad.FirstUnicastAddress.filter (fun u => u.lpSockaddr.sa_family == AF_INET) }
      ad rfl rfl ad.FirstUnicastAddress st
    rw [e]
    simp only [adapterLoop, e1, e2]
    cases unicastLoop winver ad ad.FirstUnicastAddress st with
    | none => rfl
    | some st1 => exact ih st1

/-! ## Lemmas on the sample inputs -/

theorem Win32.doWhile_exampleOs :
    doWhile exampleOs entry =
      { outBufLen := 15000, iter := 0, dwRetVal := ERROR_SUCCESS, pAddresses := exampleAdapters,
        mallocs := 1, frees := 0, calls := 1 } := by
  rw [doWhile]
  rfl

theorem Win32.exampleOs_defined (winver : Winver) (h : winver ≠ Winver.preVista none) :
    Defined winver (doWhile exampleOs entry).pAddresses := by
  rw [Win32.doWhile_exampleOs]
  cases winver with
  | vista =>
    intro p hp
    have hc : (candidates exampleAdapters).all
        (fun p => decide (1 ≤ p.2.OnLinkPrefixLength ∧ p.2.OnLinkPrefixLength ≤ 32)) = true := by
      decide
    exact of_decide_eq_true (List.all_eq_true.mp hc p hp)
  | preVista table =>
    cases table with
    | none => exact absurd rfl h
    | some t => rfl

theorem Win32.enumerate_exampleOs_vista :
    arv_enumerate_network_interfaces Winver.vista exampleOs =
      some { ret := exampleVistaRecords, warnings := [], mallocs := 1, calls := 1 } := by
  rw [arv_enumerate_network_interfaces, Win32.doWhile_exampleOs]
  decide

theorem Win32.enumerate_exampleOs_table :
    arv_enumerate_network_interfaces (Winver.preVista (some exampleTable)) exampleOs =
      some { ret := exampleTableRecords, warnings := [Warning.netmaskFallback],
             mallocs := 1, calls := 1 } := by
  rw [arv_enumerate_network_interfaces, Win32.doWhile_exampleOs]
  decide

/-! ## The claims -/

/-- C1. In the Win32 variant, under the Vista strategy and under the table strategy,
every record of a returned list holds an address, a netmask and a broadcast address,
the netmask word being the one the strategy resolved for the address, and the
broadcast word equals `addr | ~netmask` on the 32-bit words of the same record; the
function returns a list whenever the adapters lie in its defined range. -/
theorem win32_broadcast_is_addr_or_not_netmask (winver : Winver) (os : Os) :
    (∀ out, arv_enumerate_network_interfaces winver os = some out →
      ∀ r ∈ out.ret, ∃ a m b, r.addr = some a ∧ r.netmask = some m ∧ r.broadaddr = some b ∧
        (∃ u ws, u.lpSockaddr = a ∧ resolveNetmask winver u = some (m.s_addr, ws)) ∧
        b.s_addr = a.s_addr ||| not32 m.s_addr) ∧
    (Defined winver (doWhile os entry).pAddresses →
      ∃ out, arv_enumerate_network_interfaces winver os = some out) := by
  refine ⟨?_, ?_⟩
  · intro out h r hr
    obtain ⟨p, _, mw, hmw, rfl⟩ := Win32.mem_ret winver os out h r hr
    exact ⟨_, _, _, rfl, rfl, rfl, ⟨p.2, mw.2, rfl, hmw⟩, rfl⟩
  · intro hd
    exact Option.isSome_iff_exists.mp (Win32.afterQuery_defined winver _ hd)

/-- Witness of C1 on the sample adapters under the Vista strategy. -/
theorem win32_broadcast_is_addr_or_not_netmask_witness :
    Defined Winver.vista (doWhile exampleOs entry).pAddresses ∧
    (∃ out, arv_enumerate_network_interfaces Winver.vista exampleOs = some out) ∧
    ∃ out, arv_enumerate_network_interfaces Winver.vista exampleOs = some out ∧
      out.ret.length = 3 ∧
      ∀ r ∈ out.ret, ∃ a m b, r.addr = some a ∧ r.netmask = some m ∧ r.broadaddr = some b ∧
        (∃ u ws, u.lpSockaddr = a ∧ resolveNetmask Winver.vista u = some (m.s_addr, ws)) ∧
        b.s_addr = a.s_addr ||| not32 m.s_addr :=
  ⟨Win32.exampleOs_defined Winver.vista (by decide),
   (win32_broadcast_is_addr_or_not_netmask Winver.vista exampleOs).2
     (Win32.exampleOs_defined Winver.vista (by decide)),
   _, Win32.enumerate_exampleOs_vista, rfl,
   (win32_broadcast_is_addr_or_not_netmask Winver.vista exampleOs).1 _
     Win32.enumerate_exampleOs_vista⟩

/-- C2. At the on-link length 0 the Vista netmask expression shifts a 32-bit word by
32 positions, which C leaves undefined, so no mask 0.0.0.0 is computed; the lengths 24
and 32 give 255.255.255.0 and 255.255.255.255. -/
theorem onLinkNetmask_length_zero_undefined :
    onLinkNetmask 0 = none ∧
    (onLinkNetmask 24).map bytes = some [255, 255, 255, 0] ∧
    (onLinkNetmask 32).map bytes = some [255, 255, 255, 255] := by
  decide

/-- C3. In the POSIX variant an entry of the list contributes its record to the result
exactly when its flags have `IFF_UP` set and `IFF_POINTOPOINT` clear and its address is
present with family `AF_INET`, and it contributes nothing otherwise; of three entries,
the first up, not point-to-point and IPv4, the second down, the third point-to-point,
only the first appears. -/
theorem posix_entry_recorded_iff_accepted :
    (∀ e : Posix.Ifaddrs, Posix.accepts e = true ↔
      (e.ifa_flags &&& IFF_UP ≠ 0 ∧ e.ifa_flags &&& IFF_POINTOPOINT = 0 ∧
        ∃ sa, e.ifa_addr = some sa ∧ sa.sa_family = AF_INET)) ∧
    (∀ (pre post : List Posix.Ifaddrs) (e : Posix.Ifaddrs),
      Posix.arv_enumerate_network_interfaces (some (pre ++ e :: post)) =
        Posix.arv_enumerate_network_interfaces (some pre) ++
          (if Posix.accepts e = true then [Posix.fill e] else []) ++
          Posix.arv_enumerate_network_interfaces (some post)) ∧
    (∀ (e1 e2 e3 : Posix.Ifaddrs) (sa : Sockaddr),
      e1.ifa_flags &&& IFF_UP ≠ 0 → e1.ifa_flags &&& IFF_POINTOPOINT = 0 →
      e1.ifa_addr = some sa → sa.sa_family = AF_INET →
      e2.ifa_flags &&& IFF_UP = 0 → e3.ifa_flags &&& IFF_POINTOPOINT ≠ 0 →
      Posix.arv_enumerate_network_interfaces (some [e1, e2, e3]) = [Posix.fill e1] ∧
        (Posix.fill e1).addr = some sa) := by
  refine ⟨Posix.accepts_iff, ?_, ?_⟩
  · intro pre post e
    simp only [Posix.enumerate_some, List.filter_append, List.filter_cons, List.map_append]
    by_cases h : Posix.accepts e = true <;> simp [h]
  · intro e1 e2 e3 sa h1 h2 h3 h4 h5 h6
    have a1 : Posix.accepts e1 = true := (Posix.accepts_iff e1).mpr ⟨h1, h2, sa, h3, h4⟩
    have a2 : Posix.accepts e2 = false := by
      cases h : Posix.accepts e2 with
      | false => rfl
      | true => exact absurd h5 ((Posix.accepts_iff e2).mp h).1
    have a3 : Posix.accepts e3 = false := by
      cases h : Posix.accepts e3 with
      | false => rfl
      | true => exact absurd ((Posix.accepts_iff e3).mp h).2.1 h6
    refine ⟨?_, ?_⟩
    · simp [Posix.enumerate_some, List.filter_cons, a1, a2, a3]
    · rw [(Posix.fill_fields e1).1, h3]

/-- Witness of C3 on the three sample entries. -/
theorem posix_entry_recorded_iff_accepted_witness :
    Posix.arv_enumerate_network_interfaces
        (some [Posix.exampleUp, Posix.exampleDown, Posix.examplePointToPoint]) =
      [Posix.fill Posix.exampleUp] ∧
    (Posix.fill Posix.exampleUp).addr = some ⟨AF_INET, 0, 0x0100007f⟩ :=
  posix_entry_recorded_iff_accepted.2.2 Posix.exampleUp Posix.exampleDown
    Posix.examplePointToPoint ⟨AF_INET, 0, 0x0100007f⟩
    (by decide) (by decide) rfl rfl (by decide) (by decide)

/-- C4. The returned list is in the order the operating system reports: in the POSIX
variant it is the list of the records of the accepted entries in `ifa_next` order, in
the Win32 variant the list of the records of the addresses that pass `ok`, adapters in
`Next` order and inside an adapter unicast addresses in `Next` order; a failed query
gives the empty list, and the Win32 variant returns a list on every defined input. -/
theorem enumerate_keeps_os_order :
    (∀ l : List Posix.Ifaddrs,
      Posix.arv_enumerate_network_interfaces (some l) =
        (l.filter Posix.accepts).map Posix.fill) ∧
    Posix.arv_enumerate_network_interfaces none = [] ∧
    (∀ winver os out, arv_enumerate_network_interfaces winver os = some out →
      ((doWhile os entry).dwRetVal = ERROR_SUCCESS →
        out.ret.map some =
          (candidates (doWhile os entry).pAddresses).map
            (fun p => (fill winver p.1 p.2).map Prod.fst)) ∧
      ((doWhile os entry).dwRetVal ≠ ERROR_SUCCESS → out.ret = [])) ∧
    (∀ winver os, Defined winver (doWhile os entry).pAddresses →
      ∃ out, arv_enumerate_network_interfaces winver os = some out) := by
  refine ⟨Posix.enumerate_some, rfl, ?_, ?_⟩
  · intro winver os out h
    refine ⟨fun hs => (Win32.afterQuery_ret winver _ out hs h).1, fun hs => ?_⟩
    unfold arv_enumerate_network_interfaces at h
    rw [Win32.afterQuery_failure winver _ hs] at h
    simp only [Option.some.injEq] at h
    subst h
    rfl
  · intro winver os hd
    exact Option.isSome_iff_exists.mp (Win32.afterQuery_defined winver _ hd)

/-- Witness of C4 on the sample adapters under the table strategy: the three records
come in the order of the adapters and of their addresses. -/
theorem enumerate_keeps_os_order_witness :
    Defined (Winver.preVista (some exampleTable)) (doWhile exampleOs entry).pAddresses ∧
    (∃ out, arv_enumerate_network_interfaces (Winver.preVista (some exampleTable)) exampleOs =
      some out) ∧
    (doWhile exampleOs entry).dwRetVal = ERROR_SUCCESS ∧
    exampleTableRecords.map some =
      (candidates (doWhile exampleOs entry).pAddresses).map
        (fun p => (fill (Winver.preVista (some exampleTable)) p.1 p.2).map Prod.fst) :=
  ⟨Win32.exampleOs_defined _ (by decide),
   enumerate_keeps_os_order.2.2.2 (Winver.preVista (some exampleTable)) exampleOs
     (Win32.exampleOs_defined _ (by decide)),
   (Win32.doWhile_success exampleOs rfl).1,
   (enumerate_keeps_os_order.2.2.1 (Winver.preVista (some exampleTable)) exampleOs _
     Win32.enumerate_exampleOs_table).1 (Win32.doWhile_success exampleOs rfl).1⟩

/-- C5. When every query of the adapter addresses reports `ERROR_BUFFER_OVERFLOW`, the
Win32 variant allocates the buffer exactly 3 times, queries exactly 3 times, frees each
buffer, warns and returns the empty list. -/
theorem win32_overflow_three_attempts (winver : Winver) (os : Os)
    (h : ∀ n len, (os n len).dwRetVal = ERROR_BUFFER_OVERFLOW) :
    (doWhile os entry).frees = 3 ∧
    ∃ out, arv_enumerate_network_interfaces winver os = some out ∧
      out.mallocs = 3 ∧ out.calls = 3 ∧ out.ret = [] ∧
      out.warnings = tableWarnings winver ++ [Warning.enumerateFailed ERROR_BUFFER_OVERFLOW] := by
  obtain ⟨h1, h2, h3, h4, _⟩ := Win32.doWhile_overflow os h
  have hs : (doWhile os entry).dwRetVal ≠ ERROR_SUCCESS := by
    rw [h1]
    decide
  refine ⟨h4, _, Win32.afterQuery_failure winver _ hs, h2, h3, rfl, ?_⟩
  simp only [h1]

/-- Witness of C5 on the operating system that always reports the overflow. -/
theorem win32_overflow_three_attempts_witness :
    (doWhile overflowOs entry).frees = 3 ∧
    ∃ out, arv_enumerate_network_interfaces Winver.vista overflowOs = some out ∧
      out.mallocs = 3 ∧ out.calls = 3 ∧ out.ret = [] ∧
      out.warnings = tableWarnings Winver.vista ++
        [Warning.enumerateFailed ERROR_BUFFER_OVERFLOW] :=
  win32_overflow_three_attempts Winver.vista overflowOs (fun _ _ => rfl)

/-- C6. In the table strategy of the older Win32 build, when no row of the table
carries the candidate address, the resolved netmask word is `0xffffffff`
(255.255.255.255) and the fallback warning is emitted; the record filled for such an
address holds that netmask. -/
theorem table_no_match_gives_all_ones :
    (∀ (table : List MIB_IPADDRROW) (s_addr mask0 : Nat),
      (∀ row ∈ table, row.dwAddr ≠ s_addr) →
      tableNetmask table s_addr mask0 = (0xffffffff, [Warning.netmaskFallback])) ∧
    (∀ (table : List MIB_IPADDRROW) (ad : IP_ADAPTER_ADDRESSES)
      (u : IP_ADAPTER_UNICAST_ADDRESS),
      u.lpSockaddr.sa_family = AF_INET →
      (∀ row ∈ table, row.dwAddr ≠ u.lpSockaddr.s_addr) →
      ∃ r, fill (Winver.preVista (some table)) ad u = some (r, [Warning.netmaskFallback]) ∧
        r.netmask = some { u.lpSockaddr with s_addr := 0xffffffff } ∧
        (r.netmask.map (fun m => bytes m.s_addr)) = some [255, 255, 255, 255]) := by
  have key : ∀ (table : List MIB_IPADDRROW) (s_addr mask0 : Nat),
      (∀ row ∈ table, row.dwAddr ≠ s_addr) →
      tableNetmask table s_addr mask0 = (0xffffffff, [Warning.netmaskFallback]) := by
    intro table s_addr mask0 h
    simp [tableNetmask, Win32.tableScan_no_match s_addr table h]
  refine ⟨key, ?_⟩
  intro table ad u hf h
  rw [Win32.fill_inet _ ad u hf]
  simp only [resolveNetmask, key table _ _ h, Option.map_some']
  refine ⟨_, rfl, rfl, ?_⟩
  simp only [Option.map_some', Option.some.injEq]
  decide

/-- Witness of C6: the address 10.0.0.10 is in no row of the sample table. -/
theorem table_no_match_gives_all_ones_witness :
    (∀ row ∈ exampleTable, row.dwAddr ≠ 0x0a00000a) ∧
    tableNetmask exampleTable 0x0a00000a 0x0a00000a =
      (0xffffffff, [Warning.netmaskFallback]) ∧
    ∃ r, fill (Winver.preVista (some exampleTable)) ⟨IfOperStatusUp, "Ethernet", []⟩
          ⟨⟨AF_INET, 0, 0x0a00000a⟩, 8⟩ = some (r, [Warning.netmaskFallback]) ∧
      r.netmask = some ⟨AF_INET, 0, 0xffffffff⟩ ∧
      (r.netmask.map (fun m => bytes m.s_addr)) = some [255, 255, 255, 255] :=
  ⟨by decide,
   table_no_match_gives_all_ones.1 exampleTable 0x0a00000a 0x0a00000a (by decide),
   table_no_match_gives_all_ones.2 exampleTable ⟨IfOperStatusUp, "Ethernet", []⟩
     ⟨⟨AF_INET, 0, 0x0a00000a⟩, 8⟩ rfl (by decide)⟩

/-- C7, as stated, fails: in the sample table the first row that carries 192.168.1.5
has the mask 255.255.255.0, and the resolved netmask is 255.255.0.0, the mask of the
second such row. -/
theorem table_first_match_counterexample :
    (exampleTable.find? (fun r => r.dwAddr == 0x0501a8c0)).map MIB_IPADDRROW.dwMask =
      some 0x00ffffff ∧
    tableNetmask exampleTable 0x0501a8c0 0x0501a8c0 = (0x0000ffff, []) := by
  decide

/-- C7, amended. In the table strategy of the older Win32 build, when at least one row
of the table carries the candidate address (compared on the raw words), the resolved
netmask is the mask of the last such row in table order, and no warning is emitted. -/
theorem table_last_match_wins (table : List MIB_IPADDRROW) (s_addr mask0 : Nat)
    (row : MIB_IPADDRROW)
    (h : table.reverse.find? (fun r => r.dwAddr == s_addr) = some row) :
    tableNetmask table s_addr mask0 = (row.dwMask, []) := by
  simp [tableNetmask, Win32.tableScan_last s_addr table row h]

/-- Witness of the amended C7 on the sample table. -/
theorem table_last_match_wins_witness :
    exampleTable.reverse.find? (fun r => r.dwAddr == 0x0501a8c0) =
      some ⟨0x0501a8c0, 0x0000ffff⟩ ∧
    tableNetmask exampleTable 0x0501a8c0 0x0501a8c0 = (0x0000ffff, []) :=
  ⟨by decide, table_last_match_wins exampleTable 0x0501a8c0 0x0501a8c0 ⟨0x0501a8c0, 0x0000ffff⟩
    (by decide)⟩

/-- C8. In both variants every record of a returned list holds an address, and its
family is `AF_INET`; removing from the input every entry whose address is absent or of
another family changes nothing, so such entries produce no record. -/
theorem records_are_ipv4 :
    (∀ (g : Option (List Posix.Ifaddrs)), ∀ r ∈ Posix.arv_enumerate_network_interfaces g,
      ∃ a, arv_network_interface_get_addr r = some a ∧ a.sa_family = AF_INET) ∧
    (∀ l : List Posix.Ifaddrs,
      Posix.arv_enumerate_network_interfaces
          (some (l.filter (fun e => e.ifa_addr.map Sockaddr.sa_family == some AF_INET))) =
        Posix.arv_enumerate_network_interfaces (some l)) ∧
    (∀ winver os out, arv_enumerate_network_interfaces winver os = some out →
      ∀ r ∈ out.ret,
        ∃ a, arv_network_interface_get_addr r = some a ∧ a.sa_family = AF_INET) ∧
    (∀ winver os,
      arv_enumerate_network_interfaces winver (onlyInetOs os) =
        arv_enumerate_network_interfaces winver os) ∧
    (∀ winver os, Defined winver (doWhile os entry).pAddresses →
      ∃ out, arv_enumerate_network_interfaces winver os = some out) := by
  refine ⟨?_, ?_, ?_, ?_, ?_⟩
  · intro g r hr
    cases g with
    | none => simp [Posix.arv_enumerate_network_interfaces] at hr
    | some l =>
      rw [Posix.enumerate_some, List.mem_map] at hr
      obtain ⟨e, he, rfl⟩ := hr
      obtain ⟨_, _, sa, h1, h2⟩ := (Posix.accepts_iff e).mp (List.mem_filter.mp he).2
      exact ⟨sa, by rw [arv_network_interface_get_addr, (Posix.fill_fields e).1, h1], h2⟩
  · intro l
    rw [Posix.enumerate_some, Posix.enumerate_some, List.filter_filter]
    congr 1
    apply List.filter_congr
    intro e _
    cases ha : Posix.accepts e with
    | false => rfl
    | true =>
      obtain ⟨_, _, sa, h1, h2⟩ := (Posix.accepts_iff e).mp ha
      simp [h1, h2]
  · intro winver os out h r hr
    obtain ⟨p, hp, mw, _, rfl⟩ := Win32.mem_ret winver os out h r hr
    have hok := ((Win32.mem_candidates _ p).mp hp).2.2
    exact ⟨p.2.lpSockaddr, rfl, ((Win32.ok_iff _ _).mp hok).2⟩
  · intro winver os
    simp only [arv_enumerate_network_interfaces, Win32.doWhile_onlyInetOs, afterQuery,
      Win32.adapterLoop_onlyInet]
  · intro winver os hd
    exact Option.isSome_iff_exists.mp (Win32.afterQuery_defined winver _ hd)

/-- Witness of C8 on the sample adapters under the Vista strategy and on the sample
entry of the POSIX variant. -/
theorem records_are_ipv4_witness :
    Defined Winver.vista (doWhile exampleOs entry).pAddresses ∧
    (∃ out, arv_enumerate_network_interfaces Winver.vista exampleOs = some out) ∧
    (∀ r ∈ exampleVistaRecords,
      ∃ a, arv_network_interface_get_addr r = some a ∧ a.sa_family = AF_INET) ∧
    ∀ r ∈ Posix.arv_enumerate_network_interfaces (some [Posix.exampleUp]),
      ∃ a, arv_network_interface_get_addr r = some a ∧ a.sa_family = AF_INET :=
  ⟨Win32.exampleOs_defined Winver.vista (by decide),
   records_are_ipv4.2.2.2.2 Winver.vista exampleOs
     (Win32.exampleOs_defined Winver.vista (by decide)),
   records_are_ipv4.2.2.1 Winver.vista exampleOs _ Win32.enumerate_exampleOs_vista,
   records_are_ipv4.1 (some [Posix.exampleUp])⟩

/-- C9, as stated, fails in the POSIX variant: the sample entry of the loopback
interface yields a record whose address and netmask are present and IPv4 and whose
broadcast address is absent. -/
theorem posix_broadcast_counterexample :
    Posix.arv_enumerate_network_interfaces (some [Posix.exampleUp]) =
      [ { addr := some ⟨AF_INET, 0, 0x0100007f⟩,
          netmask := some ⟨AF_INET, 0, 0x000000ff⟩,
          broadaddr := none,
          name := some "lo" } ] := by
  decide

/-- C9, amended. Every record returned by the Win32 variant holds an address, a
netmask and a broadcast address, all three IPv4, with the broadcast word equal to
`addr | ~netmask`; every record returned by the POSIX variant holds copies of the
netmask and of the broadcast address of an accepted entry, each absent when the
operating system supplies none, so the equation holds there exactly when the supplied
broadcast address satisfies it. -/
theorem broadcast_computed_on_win32_copied_on_posix :
    (∀ winver os out, arv_enumerate_network_interfaces winver os = some out →
      ∀ r ∈ out.ret, ∃ a m b,
        arv_network_interface_get_addr r = some a ∧
        arv_network_interface_get_netmask r = some m ∧
        arv_network_interface_get_broadaddr r = some b ∧
        a.sa_family = AF_INET ∧ m.sa_family = AF_INET ∧ b.sa_family = AF_INET ∧
        b.s_addr = a.s_addr ||| not32 m.s_addr) ∧
    (∀ winver os, Defined winver (doWhile os entry).pAddresses →
      ∃ out, arv_enumerate_network_interfaces winver os = some out) ∧
    (∀ (l : List Posix.Ifaddrs),
      ∀ r ∈ Posix.arv_enumerate_network_interfaces (some l),
        ∃ e ∈ l, Posix.accepts e = true ∧
          arv_network_interface_get_addr r = e.ifa_addr ∧
          arv_network_interface_get_netmask r = e.ifa_netmask ∧
          arv_network_interface_get_broadaddr r = e.ifu_broadaddr) := by
  refine ⟨?_, ?_, ?_⟩
  · intro winver os out h r hr
    obtain ⟨p, hp, mw, _, rfl⟩ := Win32.mem_ret winver os out h r hr
    have hok := ((Win32.mem_candidates _ p).mp hp).2.2
    have hf := ((Win32.ok_iff _ _).mp hok).2
    exact ⟨_, _, _, rfl, rfl, rfl, hf, hf, hf, rfl⟩
  · intro winver os hd
    exact Option.isSome_iff_exists.mp (Win32.afterQuery_defined winver _ hd)
  · intro l r hr
    rw [Posix.enumerate_some, List.mem_map] at hr
    obtain ⟨e, he, rfl⟩ := hr
    obtain ⟨h1, h2, h3, _⟩ := Posix.fill_fields e
    exact ⟨e, (List.mem_filter.mp he).1, (List.mem_filter.mp he).2, h1, h2, h3⟩

/-- Witness of the amended C9 on the sample adapters under the table strategy. -/
theorem broadcast_computed_on_win32_copied_on_posix_witness :
    Defined (Winver.preVista (some exampleTable)) (doWhile exampleOs entry).pAddresses ∧
    (∃ out, arv_enumerate_network_interfaces (Winver.preVista (some exampleTable)) exampleOs =
      some out) ∧
    ∀ r ∈ exampleTableRecords, ∃ a m b,
      arv_network_interface_get_addr r = some a ∧
      arv_network_interface_get_netmask r = some m ∧
      arv_network_interface_get_broadaddr r = some b ∧
      a.sa_family = AF_INET ∧ m.sa_family = AF_INET ∧ b.sa_family = AF_INET ∧
      b.s_addr = a.s_addr ||| not32 m.s_addr :=
  ⟨Win32.exampleOs_defined _ (by decide),
   broadcast_computed_on_win32_copied_on_posix.2.1 (Winver.preVista (some exampleTable))
     exampleOs (Win32.exampleOs_defined _ (by decide)),
   broadcast_computed_on_win32_copied_on_posix.1 (Winver.preVista (some exampleTable))
     exampleOs _ Win32.enumerate_exampleOs_table⟩

/-- C10. At the on-link length 0 the Vista build computes no broadcast word: the
netmask expression is an undefined shift by 32, so the record for 192.168.1.5 with
that length is not filled, while with the length 24 its broadcast address is
192.168.1.255. -/
theorem vista_broadcast_length_zero_undefined :
    fill Winver.vista ⟨IfOperStatusUp, "Ethernet", []⟩ ⟨exampleAddr, 0⟩ = none ∧
    (fill Winver.vista ⟨IfOperStatusUp, "Ethernet", []⟩ ⟨exampleAddr, 24⟩).map
        (fun rw => rw.1.broadaddr.map (fun b => bytes b.s_addr)) =
      some (some [192, 168, 1, 255]) := by
  decide

end ArvNetwork
